import Mathlib

/-!
Verification of the SMC backtesting engine: a shallow embedding of
`core/smc_concepts.py` (pattern detectors), `strategies/example_strategy_1.py`
and `strategies/example_strategy_2.py` (signal generators) and
`core/backtester.py` (the bar-by-bar simulation engine and its performance
metrics), together with theorems settling the specification claims.

Modelling conventions:
  - Python floats become `ℚ` (the engine's arithmetic is exact in the claims
    under study); timestamps become `ℤ` (only their ordering is used).
  - A pandas DataFrame becomes a list of column names plus a list of typed
    rows (`Candle`); pandas index plumbing (DatetimeIndex conversion) is
    outside the model, the data rows carry their timestamps directly.
  - A Python function that can raise becomes a function into `Except String`;
    a caught exception becomes a `.error` consumed by the caller's handler.
  - `None`-able fields become `Option`.
-/

deriving instance DecidableEq for Except

/-- Trading signal, the strings "buy" / "sell" / "hold" of the source. -/
inductive Signal
  | buy
  | sell
  | hold
deriving DecidableEq, Repr, Inhabited

/-- The trade-record `type` strings of `Backtester.run`. -/
inductive TradeType
  | buy_long
  | sell_long
  | sell_short
  | cover_short
deriving DecidableEq, Repr, Inhabited

/-- One OHLCV bar (dataclass `Candle` of `core/smc_concepts.py`; also one row
of the engine's validated DataFrame). `open` is a Lean keyword, so the open
price field is `open_`. `volume` is optional (`.get('volume')` yields `None`
when the column is absent). -/
structure Candle where
  timestamp : ℤ
  open_ : ℚ
  high : ℚ
  low : ℚ
  close : ℚ
  volume : Option ℚ := none
deriving DecidableEq, Repr, Inhabited

/-- Dataclass `OrderBlock` of `core/smc_concepts.py`. -/
structure OrderBlock where
  start_time : ℤ
  end_time : ℤ
  high : ℚ
  low : ℚ
  volume : Option ℚ := none
  is_bullish : Bool
  mitigated_time : Option ℤ := none
  mitigated_by_wick : Bool := false
deriving DecidableEq, Repr, Inhabited

/-- Dataclass `FairValueGap` of `core/smc_concepts.py` (the source field
`partially_filled_level` is rendered `part_filled_level`). -/
structure FairValueGap where
  start_time : ℤ
  end_time : ℤ
  high : ℚ
  low : ℚ
  is_bullish : Bool
  filled_time : Option ℤ := none
  part_filled_level : Option ℚ := none
deriving DecidableEq, Repr, Inhabited

/-- `FairValueGap.filled` property. -/
def FairValueGap.filled (f : FairValueGap) : Bool :=
  f.filled_time.isSome

/-- A pandas OHLCV frame as the detectors see it: its column names (renaming
acts on these) and its typed rows. -/
structure DataFrame where
  cols : List String
  bars : List Candle
deriving DecidableEq, Repr, Inhabited

/-- ASCII `str.lower`, applied character-wise (column names are ASCII). -/
def str_lower (s : String) : String :=
  ⟨s.data.map Char.toLower⟩

/-- The per-column renaming of `_ensure_datetime_index_and_columns`: a column
whose lowercase form is one of open/high/low/close/volume is renamed to that
lowercase form, all other columns are kept as they are. -/
def normalizeCol (c : String) : String :=
  let col_lower := str_lower c
  if col_lower = "open" then "open"
  else if col_lower = "high" then "high"
  else if col_lower = "low" then "low"
  else if col_lower = "close" then "close"
  else if col_lower = "volume" then "volume"
  else c

def essential_cols : List String := ["open", "high", "low", "close"]

/-- `_ensure_datetime_index_and_columns` (columns part): standardize the
column names and raise a `ValueError` when any of open/high/low/close is
still missing afterwards. The DatetimeIndex-conversion part of the source
acts on the pandas index, which the model carries as typed timestamps. -/
def ensure_datetime_index_and_columns (df : DataFrame) : Except String DataFrame :=
  let cols := df.cols.map normalizeCol
  if essential_cols.all (fun c => cols.contains c) then
    .ok { df with cols := cols }
  else
    .error "Essential OHLC columns missing. Required: open, high, low, close"

/-- The order blocks emitted for one adjacent pair `(prev, curr)` in the loop
body of `identify_order_blocks`: the bullish and the bearish criterion are
checked independently, in this order. -/
def obPair (prev_candle curr_candle : Candle) (strength_factor : ℚ) : List OrderBlock :=
  let is_prev_bearish := prev_candle.close < prev_candle.open_
  let is_curr_bullish := curr_candle.close > curr_candle.open_
  let prev_body := |prev_candle.open_ - prev_candle.close|
  let curr_body := |curr_candle.open_ - curr_candle.close|
  let is_prev_bullish := prev_candle.close > prev_candle.open_
  let is_curr_bearish := curr_candle.close < curr_candle.open_
  (if is_prev_bearish ∧ is_curr_bullish ∧
      curr_candle.close > prev_candle.high ∧
      curr_body > prev_body * strength_factor then
    [{ start_time := prev_candle.timestamp
       end_time := prev_candle.timestamp
       high := prev_candle.high
       low := prev_candle.low
       volume := prev_candle.volume
       is_bullish := true }]
  else []) ++
  (if is_prev_bullish ∧ is_curr_bearish ∧
      curr_candle.low < prev_candle.low ∧
      curr_body > prev_body * strength_factor then
    [{ start_time := prev_candle.timestamp
       end_time := prev_candle.timestamp
       high := prev_candle.high
       low := prev_candle.low
       volume := prev_candle.volume
       is_bullish := false }]
  else [])

/-- The `for i in range(1, len(df))` loop of `identify_order_blocks`, walking
adjacent pairs in order. -/
def obScan (strength_factor : ℚ) : List Candle → List OrderBlock
  | prev_candle :: curr_candle :: rest =>
      obPair prev_candle curr_candle strength_factor ++
        obScan strength_factor (curr_candle :: rest)
  | _ => []

/-- `identify_order_blocks`: prepare the frame (catching the data error of the
helper by returning the empty list, as the source does), then scan adjacent
pairs. -/
def identify_order_blocks (ohlcv_data : DataFrame) (strength_factor : ℚ := 6/5) :
    Except String (List OrderBlock) :=
  match ensure_datetime_index_and_columns ohlcv_data with
  | .error _ => .ok []
  | .ok df => .ok (obScan strength_factor df.bars)

/-- The fair value gaps emitted for one triple `(c0, _, c2)` in the loop body
of `identify_fair_value_gaps` (bullish if/bearish elif). -/
def fvgTriple (c0 c2 : Candle) : List FairValueGap :=
  if c0.low > c2.high then
    [{ start_time := c0.timestamp
       end_time := c2.timestamp
       high := c0.low
       low := c2.high
       is_bullish := true }]
  else if c0.high < c2.low then
    [{ start_time := c0.timestamp
       end_time := c2.timestamp
       high := c2.low
       low := c0.high
       is_bullish := false }]
  else []

/-- The `for i in range(len(df) - 2)` loop of `identify_fair_value_gaps`,
walking the triples (bars i, i+1, i+2) in order. -/
def fvgScan : List Candle → List FairValueGap
  | c0 :: c1 :: c2 :: rest => fvgTriple c0 c2 ++ fvgScan (c1 :: c2 :: rest)
  | _ => []

/-- `identify_fair_value_gaps`: prepare the frame (catching the data error of
the helper by returning the empty list, as the source does), return empty for
fewer than 3 bars, else scan the triples. -/
def identify_fair_value_gaps (ohlcv_data : DataFrame) :
    Except String (List FairValueGap) :=
  match ensure_datetime_index_and_columns ohlcv_data with
  | .error _ => .ok []
  | .ok df =>
      if df.bars.length < 3 then .ok []
      else .ok (fvgScan df.bars)

/-- The strategies' `current_position` strings "long" / "short" / "none". -/
inductive StratPosition
  | long
  | short
  | none
deriving DecidableEq, Repr, Inhabited

/-- Loop state of `ExampleStrategy1.generate_signals`. -/
structure Strat1State where
  active_bullish_ob : Option OrderBlock
  active_bearish_ob : Option OrderBlock
  current_position : StratPosition
deriving DecidableEq, Repr, Inhabited

/-- `active_x_ob is None or ob.start_time > active_x_ob.start_time`. -/
def obNewer (active : Option OrderBlock) (ob : OrderBlock) : Bool :=
  match active with
  | Option.none => true
  | some a => decide (ob.start_time > a.start_time)

/-- The `for ob in order_blocks` refresh at the top of each bar of
`ExampleStrategy1.generate_signals`: keep the most recent known bullish and
bearish order block. -/
def updateActiveOBs (order_blocks : List OrderBlock) (current_time : ℤ)
    (s : Strat1State) : Strat1State :=
  order_blocks.foldl (fun s ob =>
    if ob.start_time ≤ current_time then
      if ob.is_bullish && obNewer s.active_bullish_ob ob then
        { s with active_bullish_ob := some ob }
      else if !ob.is_bullish && obNewer s.active_bearish_ob ob then
        { s with active_bearish_ob := some ob }
      else s
    else s) s

/-- One bar of the `ExampleStrategy1.generate_signals` loop: refresh active
order blocks, then run the four first-match-wins branches (buy entry, sell
entry, long exit, short exit), defaulting to a hold. -/
def strat1Bar (order_blocks : List OrderBlock) (c : Candle) (s0 : Strat1State) :
    Signal × Strat1State :=
  let s := updateActiveOBs order_blocks c.timestamp s0
  let tryBuyEntry : Option (Signal × Strat1State) :=
    if s.current_position = .none ∨ s.current_position = .short then
      match s.active_bullish_ob with
      | some ob =>
          if c.low ≤ ob.high ∧ c.high ≥ ob.low then
            some (.buy, { active_bullish_ob := Option.none,
                          active_bearish_ob := Option.none,
                          current_position := .long })
          else Option.none
      | Option.none => Option.none
    else Option.none
  let trySellEntry : Option (Signal × Strat1State) :=
    if s.current_position = .none ∨ s.current_position = .long then
      match s.active_bearish_ob with
      | some ob =>
          if c.high ≥ ob.low ∧ c.low ≤ ob.high then
            some (.sell, { active_bullish_ob := Option.none,
                           active_bearish_ob := Option.none,
                           current_position := .short })
          else Option.none
      | Option.none => Option.none
    else Option.none
  let tryExitLong : Option (Signal × Strat1State) :=
    if s.current_position = .long then
      match s.active_bearish_ob with
      | some ob =>
          if c.high ≥ ob.low then
            some (.sell, { active_bullish_ob := Option.none,
                           active_bearish_ob := Option.none,
                           current_position := .none })
          else Option.none
      | Option.none => Option.none
    else Option.none
  let tryExitShort : Option (Signal × Strat1State) :=
    if s.current_position = .short then
      match s.active_bullish_ob with
      | some ob =>
          if c.low ≤ ob.high then
            some (.buy, { active_bullish_ob := Option.none,
                          active_bearish_ob := Option.none,
                          current_position := .none })
          else Option.none
      | Option.none => Option.none
    else Option.none
  match tryBuyEntry <|> trySellEntry <|> tryExitLong <|> tryExitShort with
  | some r => r
  | Option.none => (.hold, s)

/-- The `for i in range(len(ohlcv_data))` loop of strategy 1. -/
def strat1Go (order_blocks : List OrderBlock) :
    List Candle → Strat1State → List Signal
  | [], _ => []
  | c :: rest, s =>
      let (sig, s1) := strat1Bar order_blocks c s
      sig :: strat1Go order_blocks rest s1

/-- `ExampleStrategy1.generate_signals`: all-hold for fewer than 2 bars, else
identify order blocks (default strength factor 1.2) and run the entry/exit
state machine over the bars. -/
def generate_signals_1 (ohlcv_data : DataFrame) : Except String (List Signal) :=
  if ohlcv_data.bars.length < 2 then
    .ok (List.replicate ohlcv_data.bars.length Signal.hold)
  else
    match identify_order_blocks ohlcv_data with
    | .error e => .error e
    | .ok order_blocks =>
        .ok (strat1Go order_blocks ohlcv_data.bars
          { active_bullish_ob := Option.none, active_bearish_ob := Option.none,
            current_position := .none })

/-- Loop state of `ExampleStrategy2.generate_signals`. The source mutates
`filled_time` on the fair value gap objects shared between the detected list
and the `active_*_fvg` references, so the model owns the list and the active
references are indices into it. -/
structure Strat2State where
  fvgs : List FairValueGap
  active_bullish_fvg : Option ℕ
  active_bearish_fvg : Option ℕ
  current_position : StratPosition
deriving DecidableEq, Repr, Inhabited

/-- The `for fvg in fair_value_gaps` refresh at the top of each bar of
`ExampleStrategy2.generate_signals`: the last gap formed strictly before the
current bar wins, per side. -/
def updateActiveFVGs (current_time : ℤ) (s : Strat2State) : Strat2State :=
  (List.range s.fvgs.length).foldl (fun s j =>
    let fvg := s.fvgs.getD j default
    if fvg.end_time < current_time then
      if fvg.is_bullish then { s with active_bullish_fvg := some j }
      else { s with active_bearish_fvg := some j }
    else s) s

/-- One bar of the `ExampleStrategy2.generate_signals` loop (first-match-wins
branches, marking the touched gap as filled). -/
def strat2Bar (entry_fill_ratio : ℚ) (c : Candle) (s0 : Strat2State) :
    Signal × Strat2State :=
  let s := updateActiveFVGs c.timestamp s0
  let tryBuyEntry : Option (Signal × Strat2State) :=
    if s.current_position = .none ∨ s.current_position = .short then
      match s.active_bullish_fvg with
      | some j =>
          let fvg := s.fvgs.getD j default
          if !fvg.filled then
            let entry_target_price := fvg.high - (fvg.high - fvg.low) * entry_fill_ratio
            if c.low ≤ entry_target_price ∧ c.low ≥ fvg.low then
              some (.buy, { s with
                fvgs := s.fvgs.set j { fvg with filled_time := some c.timestamp },
                active_bearish_fvg := Option.none,
                current_position := .long })
            else Option.none
          else Option.none
      | Option.none => Option.none
    else Option.none
  let trySellEntry : Option (Signal × Strat2State) :=
    if s.current_position = .none ∨ s.current_position = .long then
      match s.active_bearish_fvg with
      | some j =>
          let fvg := s.fvgs.getD j default
          if !fvg.filled then
            let entry_target_price := fvg.low + (fvg.high - fvg.low) * entry_fill_ratio
            if c.high ≥ entry_target_price ∧ c.high ≤ fvg.high then
              some (.sell, { s with
                fvgs := s.fvgs.set j { fvg with filled_time := some c.timestamp },
                active_bullish_fvg := Option.none,
                current_position := .short })
            else Option.none
          else Option.none
      | Option.none => Option.none
    else Option.none
  let tryExitLong : Option (Signal × Strat2State) :=
    if s.current_position = .long then
      match s.active_bearish_fvg with
      | some j =>
          let fvg := s.fvgs.getD j default
          if !fvg.filled then
            let entry_target_price := fvg.low + (fvg.high - fvg.low) * entry_fill_ratio
            if c.high ≥ entry_target_price then
              some (.sell, { s with
                fvgs := s.fvgs.set j { fvg with filled_time := some c.timestamp },
                active_bullish_fvg := Option.none,
                current_position := .none })
            else Option.none
          else Option.none
      | Option.none => Option.none
    else Option.none
  let tryExitShort : Option (Signal × Strat2State) :=
    if s.current_position = .short then
      match s.active_bullish_fvg with
      | some j =>
          let fvg := s.fvgs.getD j default
          if !fvg.filled then
            let entry_target_price := fvg.high - (fvg.high - fvg.low) * entry_fill_ratio
            if c.low ≤ entry_target_price then
              some (.buy, { s with
                fvgs := s.fvgs.set j { fvg with filled_time := some c.timestamp },
                active_bearish_fvg := Option.none,
                current_position := .none })
            else Option.none
          else Option.none
      | Option.none => Option.none
    else Option.none
  match tryBuyEntry <|> trySellEntry <|> tryExitLong <|> tryExitShort with
  | some r => r
  | Option.none => (.hold, s)

/-- The `for i in range(len(ohlcv_data))` loop of strategy 2. -/
def strat2Go (entry_fill_ratio : ℚ) :
    List Candle → Strat2State → List Signal
  | [], _ => []
  | c :: rest, s =>
      let (sig, s1) := strat2Bar entry_fill_ratio c s
      sig :: strat2Go entry_fill_ratio rest s1

/-- `ExampleStrategy2.generate_signals`: all-hold for fewer than 3 bars, else
identify fair value gaps and run the entry/exit state machine
(`entry_fill_ratio` defaults to 0.1). -/
def generate_signals_2 (ohlcv_data : DataFrame) (entry_fill_ratio : ℚ := 1/10) :
    Except String (List Signal) :=
  if ohlcv_data.bars.length < 3 then
    .ok (List.replicate ohlcv_data.bars.length Signal.hold)
  else
    match identify_fair_value_gaps ohlcv_data with
    | .error e => .error e
    | .ok fair_value_gaps =>
        .ok (strat2Go entry_fill_ratio ohlcv_data.bars
          { fvgs := fair_value_gaps, active_bullish_fvg := Option.none,
            active_bearish_fvg := Option.none, current_position := .none })

/-- One entry of `Backtester.trade_log` (keys of the appended dicts). -/
structure TradeRecord where
  timestamp : ℤ
  trade_type : TradeType
  price : ℚ
  size : ℚ
  commission : ℚ
  pnl : ℚ
  cash : ℚ
  portfolio_value : ℚ
deriving DecidableEq, Repr, Inhabited

/-- `execution_price_type`: the strings "close" / "next_open". -/
inductive ExecPriceType
  | close
  | next_open
deriving DecidableEq, Repr, Inhabited

/-- The configuration of a `Backtester` as stored by `__init__` (rates are
already converted from basis points). The constructor validates that the
frame has a DatetimeIndex and open/high/low/close columns; the model receives
the validated frame as its list of typed bars. -/
structure Backtester where
  ohlcv_data : List Candle
  initial_capital : ℚ
  commission_rate : ℚ
  slippage_rate : ℚ
  default_position_size : ℚ
  execution_price_type : ExecPriceType
deriving DecidableEq, Repr, Inhabited

/-- `Backtester.__init__`: converts commission/slippage from basis points to
rates (`bps / 10000`); defaults as in the source. -/
def mkBacktester (ohlcv_data : List Candle) (initial_capital : ℚ := 100000)
    (commission_bps : ℚ := 2) (slippage_bps : ℚ := 1)
    (default_position_size : ℚ := 1)
    (execution_price_type : ExecPriceType := .close) : Backtester :=
  { ohlcv_data := ohlcv_data
    initial_capital := initial_capital
    commission_rate := commission_bps / 10000
    slippage_rate := slippage_bps / 10000
    default_position_size := default_position_size
    execution_price_type := execution_price_type }

/-- The engine's per-run mutable fields `current_cash`,
`current_position_qty`, `avg_entry_price` and the append-only `trade_log`. -/
structure EngineState where
  current_cash : ℚ
  current_position_qty : ℚ
  avg_entry_price : ℚ
  trade_log : List TradeRecord
deriving DecidableEq, Repr, Inhabited

/-- `Backtester._get_execution_price`: `next_open` uses the next bar's open
and yields nothing on the last bar; `close` uses the current bar's close;
slippage is then applied against the trade direction. -/
def Backtester.get_execution_price (bt : Backtester) (current_bar_index : ℕ)
    (signal_type : Signal) : Option ℚ :=
  let intended : Option ℚ :=
    match bt.execution_price_type with
    | .next_open =>
        if current_bar_index + 1 < bt.ohlcv_data.length then
          some (bt.ohlcv_data.getD (current_bar_index + 1) default).open_
        else Option.none
    | .close => some (bt.ohlcv_data.getD current_bar_index default).close
  match intended with
  | Option.none => Option.none
  | some intended_price =>
      match signal_type with
      | .buy => some (intended_price * (1 + bt.slippage_rate))
      | .sell => some (intended_price * (1 - bt.slippage_rate))
      | .hold => some intended_price

/-- `Backtester._calculate_commission`. -/
def Backtester.calculate_commission (bt : Backtester) (trade_value : ℚ) : ℚ :=
  |trade_value| * bt.commission_rate

/-- The short-covering half of the `buy` branch of `Backtester.run` (lines
closing a negative position), returning the new state and the realized
`trade_pnl` (0 when it does not fire). -/
def buyCoverLeg (bt : Backtester) (execution_price : ℚ) (ts : ℤ)
    (st : EngineState) : EngineState × ℚ :=
  if st.current_position_qty < 0 then
    let qty_to_trade := |st.current_position_qty|
    let trade_value := qty_to_trade * execution_price
    let commission := bt.calculate_commission trade_value
    let trade_pnl := qty_to_trade * (st.avg_entry_price - execution_price) - commission
    let cash := st.current_cash - (trade_value + commission)
    ({ current_cash := cash
       current_position_qty := 0
       avg_entry_price := 0
       trade_log := st.trade_log ++
         [{ timestamp := ts, trade_type := .cover_short, price := execution_price,
            size := qty_to_trade, commission := commission, pnl := trade_pnl,
            cash := cash, portfolio_value := cash }] }, trade_pnl)
  else (st, 0)

/-- The long-opening half of the `buy` branch of `Backtester.run`: opens
`default_position_size` units if flat, but only when cash covers trade value
plus commission; otherwise it silently does nothing. -/
def buyOpenLeg (bt : Backtester) (execution_price current_close_price : ℚ)
    (ts : ℤ) (st : EngineState) : EngineState :=
  if st.current_position_qty = 0 then
    let qty_to_trade := bt.default_position_size
    let trade_value := qty_to_trade * execution_price
    let commission := bt.calculate_commission trade_value
    if st.current_cash ≥ trade_value + commission then
      let cash := st.current_cash - (trade_value + commission)
      let avg_entry_price :=
        if st.current_position_qty ≠ 0 then
          (st.avg_entry_price * st.current_position_qty + execution_price * qty_to_trade) /
            (st.current_position_qty + qty_to_trade)
        else execution_price
      let qty := st.current_position_qty + qty_to_trade
      { current_cash := cash
        current_position_qty := qty
        avg_entry_price := avg_entry_price
        trade_log := st.trade_log ++
          [{ timestamp := ts, trade_type := .buy_long, price := execution_price,
             size := qty_to_trade, commission := commission, pnl := 0,
             cash := cash, portfolio_value := cash + qty * current_close_price }] }
    else st
  else st

/-- The long-closing half of the `sell` branch of `Backtester.run`. -/
def sellCloseLeg (bt : Backtester) (execution_price : ℚ) (ts : ℤ)
    (st : EngineState) : EngineState × ℚ :=
  if st.current_position_qty > 0 then
    let qty_to_trade := st.current_position_qty
    let trade_value := qty_to_trade * execution_price
    let commission := bt.calculate_commission trade_value
    let trade_pnl := qty_to_trade * (execution_price - st.avg_entry_price) - commission
    let cash := st.current_cash + (trade_value - commission)
    ({ current_cash := cash
       current_position_qty := 0
       avg_entry_price := 0
       trade_log := st.trade_log ++
         [{ timestamp := ts, trade_type := .sell_long, price := execution_price,
            size := qty_to_trade, commission := commission, pnl := trade_pnl,
            cash := cash, portfolio_value := cash }] }, trade_pnl)
  else (st, 0)

/-- The short-opening half of the `sell` branch of `Backtester.run`: opens a
short of `default_position_size` units if flat, with no funds check. -/
def sellOpenLeg (bt : Backtester) (execution_price current_close_price : ℚ)
    (ts : ℤ) (st : EngineState) : EngineState :=
  if st.current_position_qty = 0 then
    let qty_to_trade := bt.default_position_size
    let trade_value := qty_to_trade * execution_price
    let commission := bt.calculate_commission trade_value
    let cash := st.current_cash + (trade_value - commission)
    let avg_entry_price :=
      if st.current_position_qty ≠ 0 then
        (st.avg_entry_price * |st.current_position_qty| + execution_price * qty_to_trade) /
          (|st.current_position_qty| + qty_to_trade)
      else execution_price
    let qty := st.current_position_qty - qty_to_trade
    { current_cash := cash
      current_position_qty := qty
      avg_entry_price := avg_entry_price
      trade_log := st.trade_log ++
        [{ timestamp := ts, trade_type := .sell_short, price := execution_price,
           size := qty_to_trade, commission := commission, pnl := 0,
           cash := cash, portfolio_value := cash + qty * current_close_price }] }
  else st

/-- One row of `positions_df` as used by the claims: quantity, cash, holdings
and portfolio value. -/
structure Snapshot where
  position_qty : ℚ
  cash : ℚ
  holdings_value : ℚ
  portfolio_value : ℚ
deriving DecidableEq, Repr, Inhabited

/-- The snapshot written into the current row: `holdings_value` is
`current_position_qty * close` and `portfolio_value` is the row's cash plus
its holdings value. The row's cash cell equals `current_cash` (at bar 0 it is
the initialized `initial_capital`; later it is copied from the previous row,
which the loop last wrote from `current_cash`). -/
def snapOf (st : EngineState) (current_close_price : ℚ) : Snapshot :=
  { position_qty := st.current_position_qty
    cash := st.current_cash
    holdings_value := st.current_position_qty * current_close_price
    portfolio_value := st.current_cash + st.current_position_qty * current_close_price }

/-- The valuation row of one bar: the mark-to-market snapshot taken before
acting on the signal, the re-snapshot after acting (identical to the
pre-snapshot when no execution is possible, since the loop then `continue`s),
and the `trade_pnl` cell (`NaN`, i.e. absent, when no closing trade fired). -/
structure ValuationRow where
  pre : Snapshot
  post : Snapshot
  trade_pnl : Option ℚ
deriving DecidableEq, Repr, Inhabited

/-- One iteration of the main loop of `Backtester.run` at bar `i`:
mark-to-market snapshot, execution-price lookup (skipping the rest on
`None`), the mutually exclusive buy/sell/hold handling, and the post-trade
re-snapshot. -/
def stepBar (bt : Backtester) (i : ℕ) (signal : Signal) (st : EngineState) :
    ValuationRow × EngineState :=
  let c := bt.ohlcv_data.getD i default
  let current_close_price := c.close
  let pre := snapOf st current_close_price
  match bt.get_execution_price i signal with
  | Option.none => ({ pre := pre, post := pre, trade_pnl := Option.none }, st)
  | some execution_price =>
      let acted : EngineState × ℚ :=
        match signal with
        | .buy =>
            let covered := buyCoverLeg bt execution_price c.timestamp st
            (buyOpenLeg bt execution_price current_close_price c.timestamp covered.1,
             covered.2)
        | .sell =>
            let closed := sellCloseLeg bt execution_price c.timestamp st
            (sellOpenLeg bt execution_price current_close_price c.timestamp closed.1,
             closed.2)
        | .hold => (st, 0)
      ({ pre := pre
         post := snapOf acted.1 current_close_price
         trade_pnl := if acted.2 ≠ 0 then some acted.2 else Option.none }, acted.1)

/-- The `for i, timestamp in enumerate(...)` loop of `Backtester.run`,
walking the (equal-length) signal sequence with the running bar index. -/
def runBars (bt : Backtester) : List Signal → ℕ → EngineState →
    List ValuationRow × EngineState
  | [], _, st => ([], st)
  | signal :: signals, i, st =>
      let stepped := stepBar bt i signal st
      let rest := runBars bt signals (i + 1) stepped.2
      (stepped.1 :: rest.1, rest.2)

/-- `Backtester.run` up to and including the bar loop: validates the signal
count first (configuration error), then reads `close.iloc[0]` (an IndexError
on an empty frame), then folds the loop from the initial state. -/
def Backtester.run_rows (bt : Backtester) (signals : List Signal) :
    Except String (List ValuationRow × EngineState) :=
  if signals.length ≠ bt.ohlcv_data.length then
    .error "Number of signals must match number of data points."
  else if bt.ohlcv_data.isEmpty then
    .error "IndexError: index 0 is out of bounds"
  else
    .ok (runBars bt signals 0
      { current_cash := bt.initial_capital
        current_position_qty := 0
        avg_entry_price := 0
        trade_log := [] })

/-- `expanding(min_periods=1).max()` continuation: running maxima of the tail
given the peak so far. -/
def runningPeakAux (peak : ℚ) : List ℚ → List ℚ
  | [] => []
  | v :: vs =>
      let p := max peak v
      p :: runningPeakAux p vs

/-- `portfolio_values.expanding(min_periods=1).max()`. -/
def runningPeak : List ℚ → List ℚ
  | [] => []
  | v :: vs => v :: runningPeakAux v vs

/-- The result of one float64 division in the drawdown computation. The
engine's own arithmetic is exact on its inputs, but the elementwise pandas
division `(portfolio_values - peak) / peak` produces IEEE-754 special values
when a running peak is 0: NaN for `0.0 / 0.0` and a signed infinity for
`x / 0.0`, `x ≠ 0`. These are modelled explicitly so that the downstream
`.min()` and the `max_drawdown_pct` metric keep their float semantics. -/
inductive FloatVal
  | nan
  | neg_inf
  | pos_inf
  | val (q : ℚ)
deriving DecidableEq, Repr, Inhabited

/-- Elementwise pandas/numpy float division on exact inputs (the series holds
no NaN or infinity before the division, and exact rationals carry no signed
zero). -/
def float_div (a b : ℚ) : FloatVal :=
  if b = 0 then
    if a = 0 then .nan
    else if a > 0 then .pos_inf
    else .neg_inf
  else .val (a / b)

/-- `x ≤ 0` in the float order: true of `-inf` and of nonpositive finite
values; false of `+inf` and of NaN (every comparison with NaN is false). -/
def FloatVal.nonpos : FloatVal → Bool
  | .nan => false
  | .neg_inf => true
  | .pos_inf => false
  | .val q => decide (q ≤ 0)

/-- Multiplication by the positive literal 100 in float arithmetic:
infinities and NaN propagate. -/
def FloatVal.mul100 : FloatVal → FloatVal
  | .nan => .nan
  | .neg_inf => .neg_inf
  | .pos_inf => .pos_inf
  | .val q => .val (q * 100)

/-- `(portfolio_values - peak) / peak`, elementwise float division. -/
def drawdownSeries (portfolio_values : List ℚ) : List FloatVal :=
  List.zipWith (fun v peak => float_div (v - peak) peak)
    portfolio_values (runningPeak portfolio_values)

/-- The binary step of a pandas `.min()` with the default `skipna=True`: NaN
acts as the missing value, `-inf` is smaller than everything else. -/
def floatMin2 (x y : FloatVal) : FloatVal :=
  match x, y with
  | .nan, y => y
  | x, .nan => x
  | .neg_inf, _ => .neg_inf
  | _, .neg_inf => .neg_inf
  | .pos_inf, y => y
  | x, .pos_inf => x
  | .val a, .val b => .val (min a b)

/-- `.min()` of a float series: NaN when the series is empty or all-NaN, the
smallest non-NaN element otherwise. -/
def seriesMin (l : List FloatVal) : FloatVal :=
  l.foldl floatMin2 .nan

/-- `drawdown.min() * 100`. The source's final
`max_drawdown if max_drawdown is not None else 0` guard is the identity:
the min is never `None` (it is NaN when undefined, which passes through). -/
def max_drawdown_pct_of (portfolio_values : List ℚ) : FloatVal :=
  (seriesMin (drawdownSeries portfolio_values)).mul100

/-- The scalar results of `Backtester.calculate_performance_metrics`
(`sharpe_ratio` is omitted from the model: it divides by a standard deviation
and multiplies by `sqrt(252)`, leaving the rationals; no claim concerns it). -/
structure BacktestMetrics where
  initial_capital : ℚ
  final_portfolio_value : ℚ
  total_pnl_realized : ℚ
  total_return_pct : ℚ
  num_closed_trades : ℕ
  winning_trades : ℕ
  losing_trades : ℕ
  win_rate_pct : ℚ
  max_drawdown_pct : FloatVal
  trade_log : List TradeRecord
deriving DecidableEq, Repr, Inhabited

/-- `Backtester.calculate_performance_metrics`, computed from the final
valuation rows and the trade log. -/
def Backtester.calculate_performance_metrics (bt : Backtester)
    (rows : List ValuationRow) (trade_log : List TradeRecord) : BacktestMetrics :=
  let portfolio_values := rows.map (fun r => r.post.portfolio_value)
  let final_portfolio_value :=
    match portfolio_values.getLast? with
    | some v => v
    | Option.none => bt.initial_capital
  let total_pnl_from_trades := (rows.filterMap (fun r => r.trade_pnl)).foldl (· + ·) 0
  let closed := trade_log.filter (fun t => decide (t.pnl ≠ 0))
  let num_closed_trades := closed.length
  let winning_trades := (closed.filter (fun t => decide (t.pnl > 0))).length
  let losing_trades := (closed.filter (fun t => decide (t.pnl < 0))).length
  let win_rate :=
    if num_closed_trades > 0 then (winning_trades : ℚ) / num_closed_trades * 100 else 0
  { initial_capital := bt.initial_capital
    final_portfolio_value := final_portfolio_value
    total_pnl_realized := total_pnl_from_trades
    total_return_pct :=
      if bt.initial_capital > 0 then (final_portfolio_value / bt.initial_capital - 1) * 100
      else 0
    num_closed_trades := num_closed_trades
    winning_trades := winning_trades
    losing_trades := losing_trades
    win_rate_pct := win_rate
    max_drawdown_pct := max_drawdown_pct_of portfolio_values
    trade_log := trade_log }

/-- `Backtester.run`: the bar loop followed by
`calculate_performance_metrics`. -/
def Backtester.run (bt : Backtester) (signals : List Signal) :
    Except String BacktestMetrics :=
  match bt.run_rows signals with
  | .error e => .error e
  | .ok (rows, st) => .ok (bt.calculate_performance_metrics rows st.trade_log)

/-! ## Concrete instances used by the claim theorems, counterexamples and
witnesses -/

def bt9 : Backtester :=
  mkBacktester [⟨0, 10, 10, 10, 10, none⟩, ⟨1, 200, 200, 200, 200, none⟩]
    (-100) 0 0 1 .close

def btHold : Backtester := mkBacktester [⟨0, 10, 10, 10, 10, none⟩]

def dfOBExample : DataFrame :=
  { cols := ["open", "high", "low", "close"]
    bars := [⟨0, 100, 101, 99, 98, none⟩, ⟨1, 98, 103, 97, 102, none⟩] }

def dfMissingHigh : DataFrame :=
  { cols := ["open", "low", "close"]
    bars := [⟨0, 100, 101, 99, 98, none⟩] }

def btHoldRows : List ValuationRow :=
  [{ pre := { position_qty := 0, cash := 100000, holdings_value := 0,
              portfolio_value := 100000 },
     post := { position_qty := 0, cash := 100000, holdings_value := 0,
               portfolio_value := 100000 },
     trade_pnl := Option.none }]

def btHoldFin : EngineState :=
  { current_cash := 100000, current_position_qty := 0, avg_entry_price := 0,
    trade_log := [] }

def bt5 : Backtester := mkBacktester [⟨0, 100, 100, 100, 100, none⟩] 50 0 0 1 .close

def st5 : EngineState :=
  { current_cash := 50, current_position_qty := 0, avg_entry_price := 0,
    trade_log := [] }

def btNO : Backtester :=
  mkBacktester [⟨0, 10, 10, 10, 10, none⟩] 100000 2 1 1 .next_open

def st6 : EngineState :=
  { current_cash := 5, current_position_qty := 3, avg_entry_price := 2,
    trade_log := [] }

def btN : Backtester :=
  mkBacktester [⟨0, 10, 10, 10, 10, none⟩, ⟨1, 10, 10, 10, 10, none⟩]
    100000 0 0 (-1) .close

def btZ : Backtester := mkBacktester [⟨0, 10, 10, 10, 10, none⟩] 0

def cBull0 : Candle := ⟨0, 111, 112, 110, 111, none⟩

def cBull2 : Candle := ⟨2, 107, 108, 106, 107, none⟩

def dfOne : DataFrame :=
  { cols := ["open", "high", "low", "close"]
    bars := [⟨0, 1, 1, 1, 1, none⟩] }

/-! ## Helper lemmas about the engine loop -/

theorem runBars_fst_length (bt : Backtester) :
    ∀ (signals : List Signal) (i : ℕ) (st : EngineState),
      ((runBars bt signals i st).1).length = signals.length := by
  intro signals
  induction signals with
  | nil => intro i st; rfl
  | cons sig rest ih => intro i st; simp [runBars, ih]

/-- Both snapshots of a bar's valuation row satisfy
`portfolio_value = cash + position_qty * close` with that bar's close: they
are written as `holdings_value := qty * close` and
`portfolio_value := cash + holdings_value`. -/
theorem stepBar_conservation (bt : Backtester) (i : ℕ) (sig : Signal)
    (st : EngineState) :
    ((stepBar bt i sig st).1.pre.portfolio_value =
        (stepBar bt i sig st).1.pre.cash +
          (stepBar bt i sig st).1.pre.position_qty *
            (bt.ohlcv_data.getD i default).close) ∧
    ((stepBar bt i sig st).1.post.portfolio_value =
        (stepBar bt i sig st).1.post.cash +
          (stepBar bt i sig st).1.post.position_qty *
            (bt.ohlcv_data.getD i default).close) := by
  cases h : bt.get_execution_price i sig <;>
    simp [stepBar, h, snapOf]

theorem runBars_conservation (bt : Backtester) :
    ∀ (signals : List Signal) (i : ℕ) (st : EngineState) (j : ℕ),
      j < signals.length →
      (((runBars bt signals i st).1.getD j default).pre.portfolio_value =
          ((runBars bt signals i st).1.getD j default).pre.cash +
            ((runBars bt signals i st).1.getD j default).pre.position_qty *
              (bt.ohlcv_data.getD (i + j) default).close) ∧
      (((runBars bt signals i st).1.getD j default).post.portfolio_value =
          ((runBars bt signals i st).1.getD j default).post.cash +
            ((runBars bt signals i st).1.getD j default).post.position_qty *
              (bt.ohlcv_data.getD (i + j) default).close) := by
  intro signals
  induction signals with
  | nil => intro i st j hj; simp at hj
  | cons sig rest ih =>
      intro i st j hj
      cases j with
      | zero =>
          have h := stepBar_conservation bt i sig st
          simpa [runBars] using h
      | succ j =>
          have hj2 : j < rest.length := by simpa using hj
          have h := ih (i + 1) (stepBar bt i sig st).2 j hj2
          have harith : i + (j + 1) = (i + 1) + j := by omega
          simpa [runBars, harith] using h

/-! ## C1 -/

/-- C1 (cash conservation): for every run of `Backtester.run` (whose bar loop
is `Backtester.run_rows`) and every bar index `i`, the valuation row recorded
for bar `i` satisfies `portfolio_value = cash + position_qty * close` of that
bar — exactly, at every row, both for the pre-trade snapshot and for the
post-trade re-snapshot. -/
theorem cash_conservation (bt : Backtester) (signals : List Signal)
    (rows : List ValuationRow) (fin : EngineState)
    (h : bt.run_rows signals = .ok (rows, fin)) :
    ∀ i, i < rows.length →
      ((rows.getD i default).pre.portfolio_value =
          (rows.getD i default).pre.cash +
            (rows.getD i default).pre.position_qty *
              (bt.ohlcv_data.getD i default).close) ∧
      ((rows.getD i default).post.portfolio_value =
          (rows.getD i default).post.cash +
            (rows.getD i default).post.position_qty *
              (bt.ohlcv_data.getD i default).close) := by
  intro i hi
  rw [Backtester.run_rows] at h
  split at h
  · exact absurd h (by simp)
  split at h
  · exact absurd h (by simp)
  have hrows : rows = (runBars bt signals 0
      { current_cash := bt.initial_capital, current_position_qty := 0,
        avg_entry_price := 0, trade_log := [] }).1 := by
    injection h with h1
    rw [h1]
  subst hrows
  have hi2 : i < signals.length := by
    simpa [runBars_fst_length] using hi
  simpa using runBars_conservation bt signals 0
    { current_cash := bt.initial_capital, current_position_qty := 0,
      avg_entry_price := 0, trade_log := [] } i hi2

theorem cash_conservation_witness :
    ((btHoldRows.getD 0 default).pre.portfolio_value =
        (btHoldRows.getD 0 default).pre.cash +
          (btHoldRows.getD 0 default).pre.position_qty *
            (btHold.ohlcv_data.getD 0 default).close) ∧
    ((btHoldRows.getD 0 default).post.portfolio_value =
        (btHoldRows.getD 0 default).post.cash +
          (btHoldRows.getD 0 default).post.position_qty *
            (btHold.ohlcv_data.getD 0 default).close) :=
  cash_conservation btHold [Signal.hold] btHoldRows btHoldFin
    (by norm_num [btHold, mkBacktester, Backtester.run_rows, runBars, stepBar,
      snapOf, Backtester.get_execution_price, btHoldRows, btHoldFin])
    0 (by norm_num [btHoldRows])

/-! ## C5 -/

/-- C5 (insufficient-funds atomicity): the state after a buy bar is exactly
the covering leg followed by the opening leg, and whenever the opening leg is
attempted with the engine flat and `cash < trade_value + commission`, it is a
silent no-op — no trade record is appended and cash, position quantity and
average entry price are all unchanged (the model is total, so no exception is
possible on this path). -/
theorem insufficient_funds_silent_noop :
    (∀ (bt : Backtester) (execution_price current_close_price : ℚ) (ts : ℤ)
       (st : EngineState),
       st.current_position_qty = 0 →
       st.current_cash < bt.default_position_size * execution_price +
         |bt.default_position_size * execution_price| * bt.commission_rate →
       buyOpenLeg bt execution_price current_close_price ts st = st) ∧
    (∀ (bt : Backtester) (i : ℕ) (st : EngineState) (px : ℚ),
       bt.get_execution_price i .buy = some px →
       (stepBar bt i .buy st).2 =
         buyOpenLeg bt px (bt.ohlcv_data.getD i default).close
           (bt.ohlcv_data.getD i default).timestamp
           (buyCoverLeg bt px (bt.ohlcv_data.getD i default).timestamp st).1) := by
  constructor
  · intro bt execution_price current_close_price ts st h0 hcash
    rw [buyOpenLeg, if_pos h0]
    simp only [Backtester.calculate_commission]
    rw [if_neg]
    exact not_le.mpr hcash
  · intro bt i st px h
    simp [stepBar, h]

theorem insufficient_funds_silent_noop_witness :
    buyOpenLeg bt5 100 100 0 st5 = st5 ∧
    (stepBar bt5 0 .buy st5).2 =
      buyOpenLeg bt5 100 100 0 (buyCoverLeg bt5 100 0 st5).1 :=
  ⟨insufficient_funds_silent_noop.1 bt5 100 100 0 st5 (by norm_num [st5])
      (by norm_num [bt5, st5, mkBacktester]),
   by
    have h := insufficient_funds_silent_noop.2 bt5 0 st5 100
      (by norm_num [bt5, mkBacktester, Backtester.get_execution_price])
    simpa [bt5, mkBacktester] using h⟩

/-! ## C6 -/

/-- C6 (`next_open` on the last bar): under `next_open` execution, a signal on
a bar with no following bar executes nothing — the engine state (cash,
position quantity, average entry price, trade ledger) is unchanged across the
bar and the valuation row keeps its pre-trade snapshot. -/
theorem next_open_last_bar_no_trade (bt : Backtester) (i : ℕ) (signal : Signal)
    (st : EngineState)
    (hmode : bt.execution_price_type = .next_open)
    (hlast : ¬ (i + 1 < bt.ohlcv_data.length)) :
    (stepBar bt i signal st).2 = st ∧
    (stepBar bt i signal st).1.post = (stepBar bt i signal st).1.pre ∧
    (stepBar bt i signal st).2.trade_log = st.trade_log := by
  have hp : bt.get_execution_price i signal = Option.none := by
    simp [Backtester.get_execution_price, hmode, hlast]
  refine ⟨?_, ?_, ?_⟩ <;> simp [stepBar, hp]

theorem next_open_last_bar_no_trade_witness :
    (stepBar btNO 0 .buy st6).2 = st6 ∧
    (stepBar btNO 0 .buy st6).1.post = (stepBar btNO 0 .buy st6).1.pre ∧
    (stepBar btNO 0 .buy st6).2.trade_log = st6.trade_log :=
  next_open_last_bar_no_trade btNO 0 .buy st6
    (by norm_num [btNO, mkBacktester])
    (by norm_num [btNO, mkBacktester])

/-! ## C8 -/

/-- C8 (signal-count mismatch): whenever the signal sequence's length differs
from the number of bars, `Backtester.run` (and its bar loop
`Backtester.run_rows`) yields the configuration error raised before any bar
is processed — no rows, no trades, no truncation or padding. -/
theorem signal_length_mismatch_error (bt : Backtester) (signals : List Signal)
    (h : signals.length ≠ bt.ohlcv_data.length) :
    bt.run_rows signals =
      .error "Number of signals must match number of data points." ∧
    bt.run signals =
      .error "Number of signals must match number of data points." := by
  have h1 : bt.run_rows signals =
      .error "Number of signals must match number of data points." := by
    rw [Backtester.run_rows, if_pos h]
  exact ⟨h1, by rw [Backtester.run, h1]⟩

theorem signal_length_mismatch_error_witness :
    btHold.run_rows [] =
      .error "Number of signals must match number of data points." ∧
    btHold.run [] =
      .error "Number of signals must match number of data points." :=
  signal_length_mismatch_error btHold []
    (by norm_num [btHold, mkBacktester])

/-! ## C10 helper lemmas -/

theorem buyCoverLeg_qty (bt : Backtester) (px : ℚ) (ts : ℤ) (st : EngineState) :
    (buyCoverLeg bt px ts st).1.current_position_qty = 0 ∨
    (buyCoverLeg bt px ts st).1 = st := by
  rw [buyCoverLeg]
  split_ifs <;> simp

theorem buyOpenLeg_qty (bt : Backtester) (px cl : ℚ) (ts : ℤ) (st : EngineState) :
    (buyOpenLeg bt px cl ts st).current_position_qty = bt.default_position_size ∨
    buyOpenLeg bt px cl ts st = st := by
  simp only [buyOpenLeg]
  by_cases h1 : st.current_position_qty = 0
  · rw [if_pos h1]
    by_cases hcash : bt.default_position_size * px +
        bt.calculate_commission (bt.default_position_size * px) ≤ st.current_cash
    · rw [if_pos hcash]
      left
      simp [h1]
    · rw [if_neg hcash]
      right
      rfl
  · rw [if_neg h1]
    right
    rfl

theorem sellCloseLeg_qty (bt : Backtester) (px : ℚ) (ts : ℤ) (st : EngineState) :
    (sellCloseLeg bt px ts st).1.current_position_qty = 0 ∨
    (sellCloseLeg bt px ts st).1 = st := by
  rw [sellCloseLeg]
  split_ifs <;> simp

theorem sellOpenLeg_qty (bt : Backtester) (px cl : ℚ) (ts : ℤ) (st : EngineState) :
    (sellOpenLeg bt px cl ts st).current_position_qty = -bt.default_position_size ∨
    sellOpenLeg bt px cl ts st = st := by
  rw [sellOpenLeg]
  split_ifs with h1 <;> simp [h1]

theorem stepBar_qty (bt : Backtester) (i : ℕ) (sig : Signal) (st : EngineState) :
    (stepBar bt i sig st).2.current_position_qty = st.current_position_qty ∨
    (stepBar bt i sig st).2.current_position_qty = 0 ∨
    (stepBar bt i sig st).2.current_position_qty = bt.default_position_size ∨
    (stepBar bt i sig st).2.current_position_qty = -bt.default_position_size := by
  cases h : bt.get_execution_price i sig with
  | none => left; simp [stepBar, h]
  | some px =>
      cases sig with
      | hold => left; simp [stepBar, h]
      | buy =>
          have hstep : (stepBar bt i .buy st).2 =
              buyOpenLeg bt px (bt.ohlcv_data.getD i default).close
                (bt.ohlcv_data.getD i default).timestamp
                (buyCoverLeg bt px (bt.ohlcv_data.getD i default).timestamp st).1 := by
            simp [stepBar, h]
          rw [hstep]
          rcases buyOpenLeg_qty bt px (bt.ohlcv_data.getD i default).close
              (bt.ohlcv_data.getD i default).timestamp
              (buyCoverLeg bt px (bt.ohlcv_data.getD i default).timestamp st).1 with h1 | h1
          · right; right; left; exact h1
          · rw [h1]
            rcases buyCoverLeg_qty bt px
                (bt.ohlcv_data.getD i default).timestamp st with h2 | h2
            · right; left; exact h2
            · left; rw [h2]
      | sell =>
          have hstep : (stepBar bt i .sell st).2 =
              sellOpenLeg bt px (bt.ohlcv_data.getD i default).close
                (bt.ohlcv_data.getD i default).timestamp
                (sellCloseLeg bt px (bt.ohlcv_data.getD i default).timestamp st).1 := by
            simp [stepBar, h]
          rw [hstep]
          rcases sellOpenLeg_qty bt px (bt.ohlcv_data.getD i default).close
              (bt.ohlcv_data.getD i default).timestamp
              (sellCloseLeg bt px (bt.ohlcv_data.getD i default).timestamp st).1 with h1 | h1
          · right; right; right; exact h1
          · rw [h1]
            rcases sellCloseLeg_qty bt px
                (bt.ohlcv_data.getD i default).timestamp st with h2 | h2
            · right; left; exact h2
            · left; rw [h2]

theorem stepBar_post_qty (bt : Backtester) (i : ℕ) (sig : Signal) (st : EngineState) :
    (stepBar bt i sig st).1.post.position_qty =
      (stepBar bt i sig st).2.current_position_qty := by
  cases h : bt.get_execution_price i sig <;> simp [stepBar, h, snapOf]

theorem runBars_qty3 (bt : Backtester) :
    ∀ (signals : List Signal) (i : ℕ) (st : EngineState),
      (st.current_position_qty = -bt.default_position_size ∨
       st.current_position_qty = 0 ∨
       st.current_position_qty = bt.default_position_size) →
      ∀ r ∈ (runBars bt signals i st).1,
        r.post.position_qty = -bt.default_position_size ∨
        r.post.position_qty = 0 ∨
        r.post.position_qty = bt.default_position_size := by
  intro signals
  induction signals with
  | nil => intro i st hst r hr; simp [runBars] at hr
  | cons sig rest ih =>
      intro i st hst r hr
      have hst1 : (stepBar bt i sig st).2.current_position_qty = -bt.default_position_size ∨
          (stepBar bt i sig st).2.current_position_qty = 0 ∨
          (stepBar bt i sig st).2.current_position_qty = bt.default_position_size := by
        rcases stepBar_qty bt i sig st with h | h | h | h
        · rw [h]; exact hst
        · right; left; exact h
        · right; right; exact h
        · left; exact h
      simp only [runBars, List.mem_cons] at hr
      rcases hr with hr | hr
      · subst hr
        rw [stepBar_post_qty]
        exact hst1
      · exact ih (i + 1) (stepBar bt i sig st).2 hst1 r hr

/-! ## C10 -/

/-- C10 counterexample: with the (unvalidated) configuration
`default_position_size = -1`, the run [buy, sell] ends the sell bar still at
position quantity -1, although `-default_position_size = 1`: a sell executed
on the second bar (close-mode execution always has a price) yet did not leave
the quantity at `-default_position_size`, refuting the claim's final clause
for negative configured sizes. -/
theorem position_size_counterexample :
    (btN.run_rows [Signal.buy, Signal.sell]).map
        (fun p => p.2.current_position_qty) = .ok (-1) ∧
    -btN.default_position_size = 1 ∧ ((-1 : ℚ) ≠ 1) := by
  refine ⟨?_, by norm_num [btN, mkBacktester], by norm_num⟩
  norm_num [btN, mkBacktester, Backtester.run_rows, runBars, stepBar, snapOf,
    Backtester.get_execution_price, Backtester.calculate_commission,
    buyCoverLeg, buyOpenLeg, sellCloseLeg, sellOpenLeg, Except.map]

/-- C10 (amended): starting flat, after processing any bar's signal the
engine's position quantity is one of
{-default_position_size, 0, +default_position_size}; a buy while long and a
sell while short leave the whole state unchanged; and — provided the
configured `default_position_size` is nonnegative — every sell that executes
leaves the quantity at exactly `-default_position_size` (the counterexample
shows this final clause fails for a negative configured size). -/
theorem position_size_invariant :
    (∀ (bt : Backtester) (signals : List Signal) (rows : List ValuationRow)
       (fin : EngineState),
       bt.run_rows signals = .ok (rows, fin) →
       ∀ r ∈ rows,
         r.post.position_qty = -bt.default_position_size ∨
         r.post.position_qty = 0 ∨
         r.post.position_qty = bt.default_position_size) ∧
    (∀ (bt : Backtester) (px cl : ℚ) (ts : ℤ) (st : EngineState),
       0 < st.current_position_qty →
       buyOpenLeg bt px cl ts (buyCoverLeg bt px ts st).1 = st) ∧
    (∀ (bt : Backtester) (px cl : ℚ) (ts : ℤ) (st : EngineState),
       st.current_position_qty < 0 →
       sellOpenLeg bt px cl ts (sellCloseLeg bt px ts st).1 = st) ∧
    (∀ (bt : Backtester) (px cl : ℚ) (ts : ℤ) (st : EngineState),
       0 ≤ bt.default_position_size →
       (st.current_position_qty = -bt.default_position_size ∨
        st.current_position_qty = 0 ∨
        st.current_position_qty = bt.default_position_size) →
       (sellOpenLeg bt px cl ts (sellCloseLeg bt px ts st).1).current_position_qty =
         -bt.default_position_size) := by
  refine ⟨?_, ?_, ?_, ?_⟩
  · intro bt signals rows fin h r hr
    rw [Backtester.run_rows] at h
    split at h
    · exact absurd h (by simp)
    split at h
    · exact absurd h (by simp)
    have hrows : rows = (runBars bt signals 0
        { current_cash := bt.initial_capital, current_position_qty := 0,
          avg_entry_price := 0, trade_log := [] }).1 := by
      injection h with h1
      rw [h1]
    subst hrows
    exact runBars_qty3 bt signals 0 _ (by right; left; rfl) r hr
  · intro bt px cl ts st hpos
    have hc : (buyCoverLeg bt px ts st).1 = st := by
      rw [buyCoverLeg, if_neg (by linarith)]
    rw [hc, buyOpenLeg, if_neg (by intro h0; rw [h0] at hpos; exact lt_irrefl 0 hpos)]
  · intro bt px cl ts st hneg
    have hc : (sellCloseLeg bt px ts st).1 = st := by
      rw [sellCloseLeg, if_neg (by linarith)]
    rw [hc, sellOpenLeg, if_neg (by intro h0; rw [h0] at hneg; exact lt_irrefl 0 hneg)]
  · intro bt px cl ts st hS hq
    rcases eq_or_lt_of_le hS with hS0 | hSpos
    · -- default_position_size = 0: the state is flat in every S3 case
      have hzero : st.current_position_qty = 0 := by
        rcases hq with h | h | h
        · rw [h, ← hS0]; norm_num
        · exact h
        · rw [h, ← hS0]
      have hc : (sellCloseLeg bt px ts st).1 = st := by
        rw [sellCloseLeg, if_neg (by rw [hzero]; exact lt_irrefl 0)]
      rw [hc, sellOpenLeg, if_pos hzero]
      simp [hzero]
    · rcases hq with h | h | h
      · -- already short at -S: both legs skip
        have hc : (sellCloseLeg bt px ts st).1 = st := by
          rw [sellCloseLeg, if_neg (by rw [h]; simp; linarith)]
        rw [hc, sellOpenLeg, if_neg (by rw [h]; intro h2; simp at h2; linarith)]
        exact h
      · -- flat: close skips, open fires
        have hc : (sellCloseLeg bt px ts st).1 = st := by
          rw [sellCloseLeg, if_neg (by rw [h]; exact lt_irrefl 0)]
        rw [hc, sellOpenLeg, if_pos h]
        simp [h]
      · -- long at +S: close fires, then open fires
        rw [sellCloseLeg, if_pos (by rw [h]; exact hSpos)]
        simp only []
        rw [sellOpenLeg]
        simp

theorem position_size_invariant_witness :
    ((btHoldRows.getD 0 default).post.position_qty =
        -btHold.default_position_size ∨
      (btHoldRows.getD 0 default).post.position_qty = 0 ∨
      (btHoldRows.getD 0 default).post.position_qty =
        btHold.default_position_size) ∧
    buyOpenLeg bt5 7 7 0 (buyCoverLeg bt5 7 0 st6).1 = st6 ∧
    (sellOpenLeg bt5 7 7 0 (sellCloseLeg bt5 7 0 st5).1).current_position_qty =
      -bt5.default_position_size := by
  refine ⟨?_, ?_, ?_⟩
  · exact position_size_invariant.1 btHold [Signal.hold] btHoldRows btHoldFin
      (by norm_num [btHold, mkBacktester, Backtester.run_rows, runBars, stepBar,
        snapOf, Backtester.get_execution_price, btHoldRows, btHoldFin])
      _ (by norm_num [btHoldRows])
  · exact position_size_invariant.2.1 bt5 7 7 0 st6 (by norm_num [st6])
  · exact position_size_invariant.2.2.2 bt5 7 7 0 st5
      (by norm_num [bt5, mkBacktester])
      (by right; left; norm_num [st5])

/-! ## C9 helper lemmas -/

theorem floatMin2_nonpos (x y : FloatVal) (h : x.nonpos = true) :
    (floatMin2 x y).nonpos = true := by
  cases x <;> cases y <;> simp_all [floatMin2, FloatVal.nonpos]

theorem foldl_floatMin2_nonpos :
    ∀ (l : List FloatVal) (x : FloatVal), x.nonpos = true →
      (l.foldl floatMin2 x).nonpos = true := by
  intro l
  induction l with
  | nil => intro x h; exact h
  | cons y ys ih =>
      intro x h
      exact ih (floatMin2 x y) (floatMin2_nonpos x y h)

theorem mul100_nonpos (x : FloatVal) (h : x.nonpos = true) :
    (x.mul100).nonpos = true := by
  cases x <;> simp_all [FloatVal.mul100, FloatVal.nonpos]
  have := mul_le_mul_of_nonneg_right h (by norm_num : (0:ℚ) ≤ 100)
  simpa using this

theorem float_div_zero_left (b : ℚ) :
    float_div 0 b = if b = 0 then FloatVal.nan else FloatVal.val 0 := by
  by_cases hb : b = 0
  · rw [float_div, if_pos hb, if_pos rfl, if_pos hb]
  · rw [float_div, if_neg hb, if_neg hb, zero_div]

theorem drawdown_aux_val_nonpos :
    ∀ (vs : List ℚ) (p : ℚ) (j : ℕ), j < vs.length →
      0 < (runningPeakAux p vs).getD j 0 →
      ∃ d : ℚ,
        (List.zipWith (fun v peak => float_div (v - peak) peak) vs
          (runningPeakAux p vs)).getD j FloatVal.nan = .val d ∧ d ≤ 0 := by
  intro vs
  induction vs with
  | nil => intro p j hj hpos; simp at hj
  | cons v rest ih =>
      intro p j hj hpos
      cases j with
      | zero =>
          simp only [runningPeakAux, List.zipWith_cons_cons,
            List.getD_cons_zero] at hpos ⊢
          refine ⟨(v - max p v) / max p v, ?_, ?_⟩
          · rw [float_div, if_neg (ne_of_gt hpos)]
          · have hvm : v - max p v ≤ 0 := sub_nonpos.mpr (le_max_right p v)
            exact div_nonpos_iff.mpr (Or.inr ⟨hvm, le_of_lt hpos⟩)
      | succ j =>
          simp only [runningPeakAux, List.zipWith_cons_cons,
            List.getD_cons_succ] at hpos ⊢
          exact ih (max p v) j (by simpa using hj) hpos

theorem max_drawdown_nonpos_of_head_ne (v : ℚ) (vs : List ℚ) (h : v ≠ 0) :
    (max_drawdown_pct_of (v :: vs)).nonpos = true := by
  have hhead : float_div (v - v) v = FloatVal.val 0 := by
    rw [sub_self, float_div_zero_left, if_neg h]
  rw [max_drawdown_pct_of, drawdownSeries, runningPeak]
  rw [List.zipWith_cons_cons, hhead]
  apply mul100_nonpos
  rw [seriesMin, List.foldl_cons]
  exact foldl_floatMin2_nonpos _ (floatMin2 .nan (.val 0)) rfl

theorem runningPeakAux_of_chain :
    ∀ (rest : List ℚ) (v : ℚ), List.Chain (· < ·) v rest →
      runningPeakAux v rest = rest := by
  intro rest
  induction rest with
  | nil => intro v _; rfl
  | cons w ws ih =>
      intro v hch
      cases hch with
      | cons hvw hch2 =>
          simp only [runningPeakAux]
          rw [max_eq_right (le_of_lt hvw)]
          rw [ih w hch2]

theorem zipWith_fd_self :
    ∀ vs : List ℚ,
      List.zipWith (fun v peak => float_div (v - peak) peak) vs vs =
        vs.map (fun v => if v = 0 then FloatVal.nan else FloatVal.val 0) := by
  intro vs
  induction vs with
  | nil => rfl
  | cons v rest ih =>
      simp only [List.zipWith_cons_cons, List.map_cons, ih]
      rw [sub_self, float_div_zero_left]

theorem foldl_floatMin2_val_zero :
    ∀ l : List FloatVal,
      (∀ y ∈ l, y = FloatVal.nan ∨ y = FloatVal.val 0) →
      List.foldl floatMin2 (FloatVal.val 0) l = FloatVal.val 0 := by
  intro l
  induction l with
  | nil => intro _; rfl
  | cons y ys ih =>
      intro hall
      rcases hall y (List.mem_cons_self y ys) with hy | hy
      · subst hy
        rw [List.foldl_cons]
        have h2 : floatMin2 (FloatVal.val 0) FloatVal.nan = FloatVal.val 0 := rfl
        rw [h2]
        exact ih (fun z hz => hall z (List.mem_cons_of_mem _ hz))
      · subst hy
        rw [List.foldl_cons]
        have h2 : floatMin2 (FloatVal.val 0) (FloatVal.val 0) = FloatVal.val 0 := by
          simp [floatMin2]
        rw [h2]
        exact ih (fun z hz => hall z (List.mem_cons_of_mem _ hz))

theorem foldl_floatMin2_nan_val_zero :
    ∀ l : List FloatVal,
      (∀ y ∈ l, y = FloatVal.nan ∨ y = FloatVal.val 0) →
      (∃ y ∈ l, y = FloatVal.val 0) →
      List.foldl floatMin2 FloatVal.nan l = FloatVal.val 0 := by
  intro l
  induction l with
  | nil => intro _ hex; simp at hex
  | cons y ys ih =>
      intro hall hex
      rcases hall y (List.mem_cons_self y ys) with hy | hy
      · subst hy
        rw [List.foldl_cons]
        have h2 : floatMin2 FloatVal.nan FloatVal.nan = FloatVal.nan := rfl
        rw [h2]
        apply ih (fun z hz => hall z (List.mem_cons_of_mem _ hz))
        rcases hex with ⟨z, hz, hzv⟩
        rcases List.mem_cons.mp hz with hz0 | hz0
        · rw [hz0] at hzv; exact absurd hzv (by simp)
        · exact ⟨z, hz0, hzv⟩
      · subst hy
        rw [List.foldl_cons]
        have h2 : floatMin2 FloatVal.nan (FloatVal.val 0) = FloatVal.val 0 := rfl
        rw [h2]
        exact foldl_floatMin2_val_zero ys
          (fun z hz => hall z (List.mem_cons_of_mem _ hz))

/-! ## C9 -/

/-- C9 counterexample, in two parts matching the claim's two assertions.
(1) With the (unvalidated) configuration `initial_capital = -100`, a run
whose portfolio values are [-100, -290] has drawdown series [0, 19/10]: its
second element is a strictly positive finite value, refuting "every element
of the drawdown series is ≤ 0" (the negative running peak flips the sign of
the quotient). (2) With `initial_capital = 0` (equally accepted by the
constructor), a one-bar hold run has portfolio values [0], drawdown series
[0.0/0.0] = [NaN], and `max_drawdown_pct = NaN` — which is not ≤ 0 in float
comparison — refuting "so max_drawdown_pct ≤ 0". -/
theorem drawdown_sign_counterexample :
    ((bt9.run_rows [Signal.sell, Signal.hold]).map
        (fun p => drawdownSeries (p.1.map (fun r => r.post.portfolio_value))) =
      .ok [FloatVal.val 0, FloatVal.val (19/10)] ∧ ¬ ((19:ℚ)/10 ≤ 0)) ∧
    ((btZ.run [Signal.hold]).map (fun m => m.max_drawdown_pct) =
      .ok FloatVal.nan ∧ FloatVal.nan.nonpos = false) := by
  refine ⟨⟨?_, by norm_num⟩, ?_, rfl⟩
  · norm_num [bt9, mkBacktester, Backtester.run_rows, runBars, stepBar, snapOf,
      Backtester.get_execution_price, sellCloseLeg, sellOpenLeg,
      Backtester.calculate_commission, drawdownSeries, runningPeak,
      runningPeakAux, float_div, Except.map]
  · norm_num [btZ, mkBacktester, Backtester.run, Backtester.run_rows, runBars,
      stepBar, snapOf, Backtester.get_execution_price,
      Backtester.calculate_performance_metrics, max_drawdown_pct_of,
      drawdownSeries, runningPeak, runningPeakAux, float_div, seriesMin,
      floatMin2, FloatVal.mul100, Except.map]

/-- C9 (amended): with the drawdown quotient modelled as the float division
it is (`float_div`: NaN for 0/0, signed infinity for x/0), an element of the
drawdown series is a nonpositive finite value whenever the running peak at
that element is positive (the first counterexample shows a negative peak
breaks this); `max_drawdown_pct` is ≤ 0 in the float order for every run
whose first recorded portfolio value is nonzero — its first drawdown element
is then exactly 0 — while a run starting at portfolio value 0 yields NaN
(the second counterexample); and a strictly monotonically increasing
portfolio-value series with at least one nonzero value yields
`max_drawdown_pct` exactly 0 (an all-zero series would make every quotient
0/0, i.e. NaN). -/
theorem drawdown_sign_amended :
    (∀ (vs : List ℚ) (j : ℕ), j < vs.length →
       0 < (runningPeak vs).getD j 0 →
       ∃ d : ℚ, (drawdownSeries vs).getD j FloatVal.nan = .val d ∧ d ≤ 0) ∧
    (∀ (bt : Backtester) (signals : List Signal) (rows : List ValuationRow)
       (fin : EngineState),
       bt.run_rows signals = .ok (rows, fin) →
       (rows.getD 0 default).post.portfolio_value ≠ 0 →
       ((bt.calculate_performance_metrics rows
          fin.trade_log).max_drawdown_pct).nonpos = true) ∧
    (∀ vs : List ℚ, vs.Chain' (· < ·) → (∃ x ∈ vs, x ≠ 0) →
       max_drawdown_pct_of vs = FloatVal.val 0) := by
  refine ⟨?_, ?_, ?_⟩
  · intro vs j hj hpos
    cases vs with
    | nil => simp at hj
    | cons v rest =>
        cases j with
        | zero =>
            simp only [runningPeak, List.getD_cons_zero] at hpos
            refine ⟨0, ?_, le_refl 0⟩
            simp only [drawdownSeries, runningPeak, List.zipWith_cons_cons,
              List.getD_cons_zero]
            rw [sub_self, float_div_zero_left, if_neg (ne_of_gt hpos)]
        | succ j =>
            simp only [drawdownSeries, runningPeak, List.zipWith_cons_cons,
              List.getD_cons_succ] at hpos ⊢
            exact drawdown_aux_val_nonpos rest v j (by simpa using hj) hpos
  · intro bt signals rows fin hrun h0
    cases rows with
    | nil =>
        have : (([] : List ValuationRow).getD 0 default).post.portfolio_value = 0 := rfl
        exact absurd this h0
    | cons r rest =>
        have hfield : (bt.calculate_performance_metrics (r :: rest)
            fin.trade_log).max_drawdown_pct =
            max_drawdown_pct_of ((r :: rest).map (fun r => r.post.portfolio_value)) := by
          simp [Backtester.calculate_performance_metrics]
        rw [hfield, List.map_cons]
        exact max_drawdown_nonpos_of_head_ne _ _ (by simpa using h0)
  · intro vs hch hex
    cases vs with
    | nil => simp at hex
    | cons v rest =>
        have hch2 : List.Chain (· < ·) v rest := hch
        rw [max_drawdown_pct_of, drawdownSeries, runningPeak]
        rw [runningPeakAux_of_chain rest v hch2]
        have hz := zipWith_fd_self (v :: rest)
        rw [hz, seriesMin]
        have hall : ∀ y ∈ (v :: rest).map
            (fun v => if v = 0 then FloatVal.nan else FloatVal.val 0),
            y = FloatVal.nan ∨ y = FloatVal.val 0 := by
          intro y hy
          rcases List.mem_map.mp hy with ⟨x, _, hx⟩
          by_cases hx0 : x = 0
          · left; rw [← hx, if_pos hx0]
          · right; rw [← hx, if_neg hx0]
        have hexm : ∃ y ∈ (v :: rest).map
            (fun v => if v = 0 then FloatVal.nan else FloatVal.val 0),
            y = FloatVal.val 0 := by
          rcases hex with ⟨x, hx, hx0⟩
          exact ⟨if x = 0 then FloatVal.nan else FloatVal.val 0,
            List.mem_map.mpr ⟨x, hx, rfl⟩, by rw [if_neg hx0]⟩
        rw [foldl_floatMin2_nan_val_zero _ hall hexm]
        norm_num [FloatVal.mul100]

theorem drawdown_sign_amended_witness :
    (∃ d : ℚ, (drawdownSeries [(1:ℚ), 2]).getD 0 FloatVal.nan = .val d ∧ d ≤ 0) ∧
    ((btHold.calculate_performance_metrics btHoldRows
        btHoldFin.trade_log).max_drawdown_pct).nonpos = true ∧
    max_drawdown_pct_of [(1:ℚ), 2] = FloatVal.val 0 :=
  ⟨drawdown_sign_amended.1 [1, 2] 0 (by norm_num)
      (by norm_num [runningPeak, runningPeakAux]),
   drawdown_sign_amended.2.1 btHold [Signal.hold] btHoldRows btHoldFin
      (by norm_num [btHold, mkBacktester, Backtester.run_rows, runBars, stepBar,
        snapOf, Backtester.get_execution_price, btHoldRows, btHoldFin])
      (by norm_num [btHoldRows]),
   drawdown_sign_amended.2.2 [1, 2] (by norm_num)
      ⟨1, by norm_num, by norm_num⟩⟩

/-! ## C2 -/

theorem ensure_dfMissingHigh :
    ensure_datetime_index_and_columns dfMissingHigh =
      .error "Essential OHLC columns missing. Required: open, high, low, close" := by
  decide

/-- C2 counterexample: on a frame whose columns after normalization are
missing `high`, both detectors return a plain `.ok []` — a normal empty
result, not a raised data error — because each catches the helper's
`ValueError` internally, refuting "they do not return a normal empty result
for such input". -/
theorem detectors_missing_cols_counterexample :
    identify_order_blocks dfMissingHigh (6/5) = .ok [] ∧
    identify_fair_value_gaps dfMissingHigh = .ok [] := by
  constructor
  · rw [identify_order_blocks, ensure_dfMissingHigh]
  · rw [identify_fair_value_gaps, ensure_dfMissingHigh]

/-- C2 (amended): for every input frame that, after column-name
normalization, is missing any of open/high/low/close, the shared helper
`_ensure_datetime_index_and_columns` does raise the data error — but both
`identify_order_blocks` and `identify_fair_value_gaps` catch it and return a
normal empty list instead of propagating it (they do not silently run the
detection loops on the corrupt frame). -/
theorem detectors_missing_cols_return_empty (df : DataFrame)
    (h : (essential_cols.all fun c => (df.cols.map normalizeCol).contains c) = false) :
    ensure_datetime_index_and_columns df =
      .error "Essential OHLC columns missing. Required: open, high, low, close" ∧
    (∀ strength_factor : ℚ,
      identify_order_blocks df strength_factor = .ok []) ∧
    identify_fair_value_gaps df = .ok [] := by
  have he : ensure_datetime_index_and_columns df =
      .error "Essential OHLC columns missing. Required: open, high, low, close" := by
    simp only [ensure_datetime_index_and_columns]
    rw [if_neg (by rw [h]; decide)]
  refine ⟨he, fun sf => ?_, ?_⟩
  · rw [identify_order_blocks, he]
  · rw [identify_fair_value_gaps, he]

theorem detectors_missing_cols_return_empty_witness :
    ensure_datetime_index_and_columns dfMissingHigh =
      .error "Essential OHLC columns missing. Required: open, high, low, close" ∧
    identify_order_blocks dfMissingHigh 2 = .ok [] ∧
    identify_fair_value_gaps dfMissingHigh = .ok [] :=
  ⟨(detectors_missing_cols_return_empty dfMissingHigh (by decide)).1,
   (detectors_missing_cols_return_empty dfMissingHigh (by decide)).2.1 2,
   (detectors_missing_cols_return_empty dfMissingHigh (by decide)).2.2⟩

/-! ## C3 -/

theorem mem_ite_append_singleton {α : Type} (x a b : α) (A B : Prop)
    [Decidable A] [Decidable B] :
    (x ∈ (if A then [a] else []) ++ (if B then [b] else [])) ↔
    ((A ∧ x = a) ∨ (B ∧ x = b)) := by
  constructor
  · intro h
    rcases List.mem_append.mp h with h | h
    · split_ifs at h with hA
      · exact Or.inl ⟨hA, List.mem_singleton.mp h⟩
      · simp at h
    · split_ifs at h with hB
      · exact Or.inr ⟨hB, List.mem_singleton.mp h⟩
      · simp at h
  · rintro (⟨hA, rfl⟩ | ⟨hB, rfl⟩)
    · exact List.mem_append.mpr (Or.inl (by rw [if_pos hA]; exact List.mem_singleton.mpr rfl))
    · exact List.mem_append.mpr (Or.inr (by rw [if_pos hB]; exact List.mem_singleton.mpr rfl))

/-- C3 (order-block detection): on the spec's two-bar series
[(O=100,H=101,L=99,C=98), (O=98,H=103,L=97,C=102)] with strength factor 1.2,
`identify_order_blocks` returns exactly one bullish OrderBlock with high=101
and low=99; and in general, for an adjacent pair (prev, curr) the bullish
OrderBlock over prev's range is emitted iff prev.close < prev.open,
curr.close > curr.open, curr.close > prev.high, and
|curr.close - curr.open| > |prev.close - prev.open| * strength_factor. -/
theorem order_block_detection :
    (identify_order_blocks dfOBExample (6/5) =
      .ok [{ start_time := 0, end_time := 0, high := 101, low := 99,
             volume := none, is_bullish := true }]) ∧
    (∀ (prev_candle curr_candle : Candle) (strength_factor : ℚ),
      (({ start_time := prev_candle.timestamp
          end_time := prev_candle.timestamp
          high := prev_candle.high
          low := prev_candle.low
          volume := prev_candle.volume
          is_bullish := true } : OrderBlock) ∈
          obPair prev_candle curr_candle strength_factor) ↔
      (prev_candle.close < prev_candle.open_ ∧
       curr_candle.open_ < curr_candle.close ∧
       prev_candle.high < curr_candle.close ∧
       |prev_candle.close - prev_candle.open_| * strength_factor <
         |curr_candle.close - curr_candle.open_|)) := by
  constructor
  · have h : ensure_datetime_index_and_columns dfOBExample =
        .ok { cols := ["open", "high", "low", "close"], bars := dfOBExample.bars } := by
      decide
    rw [identify_order_blocks, h]
    norm_num [dfOBExample, obScan, obPair]
  · intro prev_candle curr_candle strength_factor
    simp only [obPair]
    rw [mem_ite_append_singleton]
    simp [OrderBlock.mk.injEq, abs_sub_comm prev_candle.open_ prev_candle.close,
      abs_sub_comm curr_candle.open_ curr_candle.close]

/-! ## C4 helper lemmas -/

theorem ensure_preserves_bars (df df2 : DataFrame)
    (h : ensure_datetime_index_and_columns df = .ok df2) : df2.bars = df.bars := by
  simp only [ensure_datetime_index_and_columns] at h
  split_ifs at h with hc
  injection h with h1
  rw [← h1]

theorem fvgScan_short (bars : List Candle) (h : bars.length < 3) :
    fvgScan bars = [] := by
  cases bars with
  | nil => rfl
  | cons c0 t =>
      cases t with
      | nil => rfl
      | cons c1 t2 =>
          cases t2 with
          | nil => rfl
          | cons c2 t3 => simp at h; omega

theorem fvgScan_eq_flatMap :
    ∀ bars : List Candle,
      fvgScan bars = (List.range (bars.length - 2)).flatMap
        (fun i => fvgTriple (bars.getD i default) (bars.getD (i + 2) default)) := by
  intro bars
  induction bars with
  | nil => rfl
  | cons c0 tail ih =>
      cases tail with
      | nil => rfl
      | cons c1 tail2 =>
          cases tail2 with
          | nil => rfl
          | cons c2 rest =>
              have hstep : fvgScan (c0 :: c1 :: c2 :: rest) =
                  fvgTriple c0 c2 ++ fvgScan (c1 :: c2 :: rest) := rfl
              have hlen : (c0 :: c1 :: c2 :: rest).length - 2 = rest.length + 1 := by
                simp
              have hlen2 : (c1 :: c2 :: rest).length - 2 = rest.length := by simp
              rw [hstep, ih, hlen, hlen2, List.range_succ_eq_map, List.flatMap_cons]
              congr 1
              simp only [List.flatMap_def, List.map_map]
              congr 1

/-! ## C4 -/

/-- C4 (fair-value-gap detection): `identify_fair_value_gaps` returns the
empty list for fewer than 3 bars; on a prepared frame it is the triple scan;
the scan emits, for each index i in [0, len-2), exactly the gaps of
`fvgTriple` on (bars i, bars i+2); and the triple emits one bullish gap
(high=c0.low, low=c2.high, spanning c0's to c2's timestamps) iff
c0.low > c2.high, else one bearish gap (high=c2.low, low=c0.high) iff
c0.high < c2.low, else nothing — the middle candle is irrelevant and the two
cases are mutually exclusive by the else-if. -/
theorem fair_value_gap_detection :
    (∀ df : DataFrame, df.bars.length < 3 →
      identify_fair_value_gaps df = .ok []) ∧
    (∀ df df2 : DataFrame, ensure_datetime_index_and_columns df = .ok df2 →
      identify_fair_value_gaps df = .ok (fvgScan df.bars)) ∧
    (∀ bars : List Candle,
      fvgScan bars = (List.range (bars.length - 2)).flatMap
        (fun i => fvgTriple (bars.getD i default) (bars.getD (i + 2) default))) ∧
    (∀ c0 c2 : Candle,
      (c2.high < c0.low →
        fvgTriple c0 c2 =
          [{ start_time := c0.timestamp, end_time := c2.timestamp,
             high := c0.low, low := c2.high, is_bullish := true }]) ∧
      (c0.low ≤ c2.high → c0.high < c2.low →
        fvgTriple c0 c2 =
          [{ start_time := c0.timestamp, end_time := c2.timestamp,
             high := c2.low, low := c0.high, is_bullish := false }]) ∧
      (c0.low ≤ c2.high → c2.low ≤ c0.high → fvgTriple c0 c2 = [])) := by
  refine ⟨?_, ?_, fvgScan_eq_flatMap, ?_⟩
  · intro df h
    cases he : ensure_datetime_index_and_columns df with
    | error e => rw [identify_fair_value_gaps, he]
    | ok df2 =>
        have hb := ensure_preserves_bars df df2 he
        rw [identify_fair_value_gaps, he]
        dsimp only
        rw [if_pos (by rw [hb]; exact h)]
  · intro df df2 he
    rw [identify_fair_value_gaps, he]
    have hb := ensure_preserves_bars df df2 he
    dsimp only
    by_cases h3 : df2.bars.length < 3
    · rw [if_pos h3, fvgScan_short df.bars (by rw [← hb]; exact h3)]
    · rw [if_neg h3, hb]
  · intro c0 c2
    refine ⟨?_, ?_, ?_⟩
    · intro h
      rw [fvgTriple, if_pos h]
    · intro h1 h2
      rw [fvgTriple, if_neg (by exact not_lt.mpr h1), if_pos h2]
    · intro h1 h2
      rw [fvgTriple, if_neg (by exact not_lt.mpr h1), if_neg (by exact not_lt.mpr h2)]

theorem fair_value_gap_detection_witness :
    identify_fair_value_gaps dfMissingHigh = .ok [] ∧
    fvgTriple cBull0 cBull2 =
      [{ start_time := 0, end_time := 2, high := 110, low := 108,
         is_bullish := true }] :=
  ⟨fair_value_gap_detection.1 dfMissingHigh (by norm_num [dfMissingHigh]),
   (fair_value_gap_detection.2.2.2 cBull0 cBull2).1
     (by norm_num [cBull0, cBull2])⟩

/-! ## C7 -/

/-- C7 counterexample: on a one-bar series (below both strategies' minimum
bar count), both `generate_signals` implementations return normally with the
all-hold sequence — no data error is raised, refuting the claim's "raises a
data error" clause. -/
theorem short_series_signals_counterexample :
    generate_signals_1 dfOne = .ok [Signal.hold] ∧
    generate_signals_2 dfOne = .ok [Signal.hold] := by
  constructor
  · rw [generate_signals_1, if_pos (by norm_num [dfOne])]
    norm_num [dfOne]
  · rw [generate_signals_2, if_pos (by norm_num [dfOne])]
    norm_num [dfOne]

/-- C7 (amended): for every input series below the strategy's minimum bar
count (2 bars for the OrderBlock strategy, 3 for the FairValueGap strategy),
`generate_signals` does not raise: it returns the all-hold signal sequence of
length equal to the input length. -/
theorem short_series_all_hold :
    (∀ df : DataFrame, df.bars.length < 2 →
      generate_signals_1 df = .ok (List.replicate df.bars.length Signal.hold)) ∧
    (∀ (df : DataFrame) (entry_fill_ratio : ℚ), df.bars.length < 3 →
      generate_signals_2 df entry_fill_ratio =
        .ok (List.replicate df.bars.length Signal.hold)) := by
  constructor
  · intro df h
    rw [generate_signals_1, if_pos h]
  · intro df r h
    rw [generate_signals_2, if_pos h]

theorem short_series_all_hold_witness :
    generate_signals_1 dfOne = .ok (List.replicate dfOne.bars.length Signal.hold) ∧
    generate_signals_2 dfOne (1/2) =
      .ok (List.replicate dfOne.bars.length Signal.hold) :=
  ⟨short_series_all_hold.1 dfOne (by norm_num [dfOne]),
   short_series_all_hold.2 dfOne (1/2) (by norm_num [dfOne])⟩
